import Mathlib

/-!
Verification development for the FlowVectorCorrections correction-step
pipeline.  The definitions below are a shallow embedding of the C++
sources:

* QnCorrectionsDataVector.cxx — contains, after the data-vector class, the
  current implementation of the Qn vector classes (QnCorrectionsQnVector
  and QnCorrectionsQnVectorBuild); this is the implementation the
  recentering and gain-equalization steps compile against (they use the
  quality flag and the two-argument Set, which exist only here).
* QnCorrectionsQnVectors.cxx — an older, superseded copy of the same two
  classes (no quality flag); embedded in the Legacy namespace.
* QnCorrectionsQnVectorRecentering.cxx — the recentering correction step.
* QnCorrectionsInputGainEqualization.cxx — the gain-equalization step.

Machine floats are modelled by the rationals: every claim settled here is
about exact arithmetic identities at small inputs.  The opaque calibration
store, the event-class variable container, TMath.Sqrt and the simple
accessors defined in the class headers (which are not part of the sources)
are modelled as explicit parameters, as noted at each definition.
-/

namespace QnCorrections

/-- The minimum value that will be considered as meaningful for processing
(QnCorrectionsDataVector.cxx line 109, same constant at
QnCorrectionsQnVectors.cxx line 43 and
QnCorrectionsInputGainEqualization.cxx line 41). -/
def fMinimumSignificantValue : ℚ := 1 / 1000000

/-- The maximum external harmonic number the framework supports
(QnCorrectionsQnVectors.cxx line 45; the macro of the same role in the
newer class has the same value). -/
def MAXHARMONICNUMBERSUPPORTED : Nat := 15

/-- Mask for each external harmonic number.  The source table
(QnCorrectionsDataVector.cxx lines 110-112) is 0x0000 at index 0 and
2 to the power h at index h for h between 1 and 15; the table is only
indexed below 16 by the source. -/
def harmonicNumberMask (h : Nat) : Nat := if h = 0 then 0 else 2 ^ h

/-- The index sequence of a harmonic loop
written for h from 1 while h is less than highest plus 1. -/
def harmonicRange (n : Nat) : List Nat := (List.range n).map (fun k => k + 1)

/-- Qn vector, current implementation
(QnCorrectionsDataVector.cxx lines 114 onward).  The two component arrays
fQnX and fQnY are total maps from the harmonic number; entries outside the
harmonic mask are meaningless.  The TNamed name and title are out of the
model. -/
structure QnVector where
  highestHarmonic : Nat
  harmonicMask : Nat
  qx : Nat → ℚ
  qy : Nat → ℚ
  goodQuality : Bool

/-- The harmonic-activity test as written in the current implementation:
the bitwise conjunction of the mask with the harmonic bit equals the
harmonic bit. -/
def harmonicActive (mask h : Nat) : Bool :=
  (mask &&& harmonicNumberMask h) == harmonicNumberMask h

/-- The ascending list of active harmonics of a Qn vector.  It mirrors the
loop of GetHarmonicsMap (QnCorrectionsDataVector.cxx lines 239-247) and
the GetFirstHarmonic and GetNextHarmonic iteration described by the spec
(ascending active harmonic numbers, sentinel when exhausted). -/
def activeHarmonics (v : QnVector) : List Nat :=
  (harmonicRange v.highestHarmonic).filter (fun h => harmonicActive v.harmonicMask h)

namespace QnVector

/-- ActivateHarmonic, current implementation
(QnCorrectionsDataVector.cxx lines 194-219).  The fatal error on a
harmonic above the supported maximum is modelled as none. -/
def ActivateHarmonic (harmonic : Nat) (v : QnVector) : Option QnVector :=
  if MAXHARMONICNUMBERSUPPORTED < harmonic then none
  else if v.highestHarmonic < harmonic then
    some { v with
      highestHarmonic := harmonic,
      harmonicMask := v.harmonicMask ||| harmonicNumberMask harmonic,
      qx := fun h => if h = harmonic then 0 else v.qx h,
      qy := fun h => if h = harmonic then 0 else v.qy h }
  else if harmonicActive v.harmonicMask harmonic then
    some v
  else
    some { v with
      harmonicMask := v.harmonicMask ||| harmonicNumberMask harmonic,
      qx := fun h => if h = harmonic then 0 else v.qx h,
      qy := fun h => if h = harmonic then 0 else v.qy h }

/-- Set, current implementation (QnCorrectionsDataVector.cxx lines
256-270).  The harmonic structures are compared; a mismatch raises the
fatal error, modelled as none.  Otherwise the whole component arrays and
the quality flag are copied.  The optional name change only touches the
TNamed name, which is out of the model. -/
def Set (v Qn : QnVector) : Option QnVector :=
  if v.highestHarmonic ≠ Qn.highestHarmonic ∨ v.harmonicMask ≠ Qn.harmonicMask then none
  else some { v with qx := Qn.qx, qy := Qn.qy, goodQuality := Qn.goodQuality }

/-- Modelled from the spec: the per-harmonic vector length used by the
normalized component accessors QxNorm and QyNorm, which are defined in the
class header QnCorrectionsQnVector.h, not present in the sources.  The
spec states that normalize replaces the pair of components with the pair
divided by the harmonic vector length.  The square root of the external
math library is passed as a parameter. -/
def lengthOfHarmonic (sqrt : ℚ → ℚ) (x y : ℚ) : ℚ := sqrt (x * x + y * y)

/-- Modelled from the spec: QxNorm, the x component divided by the
harmonic vector length (class header, not present in the sources). -/
def QxNorm (sqrt : ℚ → ℚ) (x y : ℚ) : ℚ := x / lengthOfHarmonic sqrt x y

/-- Modelled from the spec: QyNorm, the y component divided by the
harmonic vector length (class header, not present in the sources). -/
def QyNorm (sqrt : ℚ → ℚ) (x y : ℚ) : ℚ := y / lengthOfHarmonic sqrt x y

/-- Normalize, current implementation (QnCorrectionsDataVector.cxx lines
274-281): for every h from 1 to the highest harmonic that passes the
harmonic-activity test, the components are replaced by their normalized
values; both normalized values are taken of the components the vector
holds when the loop reaches that harmonic, and the loop at each h only
touches the entries at h, so the update is pointwise. -/
def Normalize (sqrt : ℚ → ℚ) (v : QnVector) : QnVector :=
  { v with
    qx := fun h => if h ∈ activeHarmonics v then QxNorm sqrt (v.qx h) (v.qy h) else v.qx h,
    qy := fun h => if h ∈ activeHarmonics v then QyNorm sqrt (v.qx h) (v.qy h) else v.qy h }

end QnVector

/-- Build Qn vector, current implementation
(QnCorrectionsDataVector.cxx lines 318 onward): the accumulating variant
adds the sum of contribution weights and the number of contributions. -/
structure QnVectorBuild extends QnVector where
  sumW : ℚ
  n : ℤ

namespace QnVectorBuild

/-- NormalizeQoverM, current implementation
(QnCorrectionsDataVector.cxx lines 412-425): when the sum of weights is
below the significance threshold nothing happens; otherwise every active
harmonic component is assigned its value divided by the sum of weights.
The sum of weights itself is not modified. -/
def NormalizeQoverM (v : QnVectorBuild) : QnVectorBuild :=
  if v.sumW < fMinimumSignificantValue then v
  else
    { v with
      qx := fun h => if h ∈ activeHarmonics v.toQnVector then v.qx h / v.sumW else v.qx h,
      qy := fun h => if h ∈ activeHarmonics v.toQnVector then v.qy h / v.sumW else v.qy h }

/-- NormalizeQoverSquareRootOfM, current implementation
(QnCorrectionsDataVector.cxx lines 432-445): when the sum of weights is
below the significance threshold nothing happens; otherwise every active
harmonic component is INCREMENTED by its value divided by the square root
of the sum of weights — the source uses a compound assignment where
NormalizeQoverM uses a plain one. -/
def NormalizeQoverSquareRootOfM (sqrt : ℚ → ℚ) (v : QnVectorBuild) : QnVectorBuild :=
  if v.sumW < fMinimumSignificantValue then v
  else
    { v with
      qx := fun h => if h ∈ activeHarmonics v.toQnVector then v.qx h + v.qx h / sqrt v.sumW else v.qx h,
      qy := fun h => if h ∈ activeHarmonics v.toQnVector then v.qy h + v.qy h / sqrt v.sumW else v.qy h }

end QnVectorBuild

namespace Legacy

/-- Qn vector of the older implementation (QnCorrectionsQnVectors.cxx);
this class version has no quality flag. -/
structure QnVector where
  highestHarmonic : Nat
  harmonicMask : Nat
  qx : Nat → ℚ
  qy : Nat → ℚ

/-- The harmonic-activity test as written in the older implementation,
for instance at QnCorrectionsQnVectors.cxx lines 142, 169, 268, 286 and
302: the C expression there reads
fHarmonicMask ampersand harmonicNumberMask[h] equals-equals
harmonicNumberMask[h]; the equality binds tighter than the bitwise
conjunction, so the expression is the bitwise conjunction of the mask
with the value 1 of the always-true equality, that is, bit 0 of the mask,
tested nonzero. -/
def harmonicActiveAsWritten (mask h : Nat) : Bool :=
  (mask &&& (if harmonicNumberMask h = harmonicNumberMask h then 1 else 0)) != 0

/-- The list of harmonics a loop of the older implementation actually
visits with an executed body: h from 1 to the highest harmonic passing
the test as written. -/
def visitedHarmonics (v : QnVector) : List Nat :=
  (harmonicRange v.highestHarmonic).filter (fun h => harmonicActiveAsWritten v.harmonicMask h)

/-- ActivateHarmonic of the older implementation
(QnCorrectionsQnVectors.cxx lines 127-152), with the activity test as
written. -/
def ActivateHarmonic (harmonic : Nat) (v : QnVector) : Option QnVector :=
  if MAXHARMONICNUMBERSUPPORTED < harmonic then none
  else if v.highestHarmonic < harmonic then
    some { v with
      highestHarmonic := harmonic,
      harmonicMask := v.harmonicMask ||| harmonicNumberMask harmonic,
      qx := fun h => if h = harmonic then 0 else v.qx h,
      qy := fun h => if h = harmonic then 0 else v.qy h }
  else if harmonicActiveAsWritten v.harmonicMask harmonic then
    some v
  else
    some { v with
      harmonicMask := v.harmonicMask ||| harmonicNumberMask harmonic,
      qx := fun h => if h = harmonic then 0 else v.qx h,
      qy := fun h => if h = harmonic then 0 else v.qy h }

/-- Normalize of the older implementation (QnCorrectionsQnVectors.cxx
lines 167-174), with the activity test as written; the normalized
component accessors are the same spec-modelled ones as for the current
implementation. -/
def Normalize (sqrt : ℚ → ℚ) (v : QnVector) : QnVector :=
  { v with
    qx := fun h => if h ∈ visitedHarmonics v then
        QnVector.QxNorm sqrt (v.qx h) (v.qy h) else v.qx h,
    qy := fun h => if h ∈ visitedHarmonics v then
        QnVector.QyNorm sqrt (v.qx h) (v.qy h) else v.qy h }

/-- Build Qn vector of the older implementation. -/
structure QnVectorBuild extends QnVector where
  sumW : ℚ
  n : ℤ

/-- NormalizeQoverM of the older implementation
(QnCorrectionsQnVectors.cxx lines 282-291): the loop hangs off the branch
taken when the sum of weights is BELOW the significance threshold (the
conditional has no else), and the body INCREMENTS each visited component
by its value divided by the sum of weights. -/
def NormalizeQoverM (v : QnVectorBuild) : QnVectorBuild :=
  if v.sumW < fMinimumSignificantValue then
    { v with
      qx := fun h => if h ∈ visitedHarmonics v.toQnVector then v.qx h + v.qx h / v.sumW else v.qx h,
      qy := fun h => if h ∈ visitedHarmonics v.toQnVector then v.qy h + v.qy h / v.sumW else v.qy h }
  else v

/-- NormalizeQoverSquareRootOfM of the older implementation
(QnCorrectionsQnVectors.cxx lines 298-307): same shape as its
NormalizeQoverM, with the square root of the sum of weights. -/
def NormalizeQoverSquareRootOfM (sqrt : ℚ → ℚ) (v : QnVectorBuild) : QnVectorBuild :=
  if v.sumW < fMinimumSignificantValue then
    { v with
      qx := fun h => if h ∈ visitedHarmonics v.toQnVector then v.qx h + v.qx h / sqrt v.sumW else v.qx h,
      qy := fun h => if h ∈ visitedHarmonics v.toQnVector then v.qy h + v.qy h / sqrt v.sumW else v.qy h }
  else v

end Legacy

/-- The three-state calibration and apply state machine shared by every
correction step (the QCORRSTEP states used by the switch statements of
the concrete steps). -/
inductive CorrectionStepState where
  | calibration
  | applyCollect
  | apply
deriving DecidableEq

/-- What the recentering step reads from its attached input histograms for
the current event-class bin (the opaque calibration-statistics store of
the spec): whether the bin content is validated, and the per-harmonic
contents and errors of both components.  These model the
BinContentValidated, GetXBinContent, GetYBinContent, GetXBinError and
GetYBinError calls at the bin returned by GetBin of the event-class
variable container. -/
structure RecenteringInputs where
  binValidated : Bool
  xBinContent : Nat → ℚ
  yBinContent : Nat → ℚ
  xBinError : Nat → ℚ
  yBinError : Nat → ℚ

/-- The mutable state of the recentering step that ProcessCorrections can
touch: the step state, the width-equalization switch, the step-owned
corrected Qn vector, and the content of the not-validated QA bin
addressed by the current event class — none when the QA histogram was not
created (the fQANotValidatedBin null check). -/
structure RecenteringState where
  state : CorrectionStepState
  applyWidthEqualization : Bool
  correctedQnVector : QnVector
  qaNotValidatedBin : Option ℚ

namespace QnVectorRecentering

/-- The part of ProcessCorrections shared by the applyCollect and apply
cases, which the source expresses as a case fallthrough
(QnCorrectionsQnVectorRecentering.cxx lines 170-210).  The current Qn
vector of the detector configuration is passed explicitly; the returned
Qn vector is the detector's current Qn vector after the call, since the
step always ends these cases with UpdateCurrentQnVector of its own
corrected Qn vector.  UpdateCurrentQnVector itself lives in the detector
configuration header, not in the sources; modelled from the spec: each
step possibly replaces the current Qn vector with its own corrected
output.  The fatal error inside Set is modelled as none. -/
def processApply (s : RecenteringState) (current : QnVector) (inp : RecenteringInputs) :
    Option (RecenteringState × QnVector × Bool) :=
  if current.goodQuality then
    match QnVector.Set s.correctedQnVector current with
    | none => none
    | some c0 =>
      if inp.binValidated then
        let c1 : QnVector :=
          { c0 with
            qx := fun h => if h ∈ activeHarmonics current then
                (current.qx h - inp.xBinContent h) /
                  (if s.applyWidthEqualization then inp.xBinError h else 1)
              else c0.qx h,
            qy := fun h => if h ∈ activeHarmonics current then
                (current.qy h - inp.yBinContent h) /
                  (if s.applyWidthEqualization then inp.yBinError h else 1)
              else c0.qy h }
        some ({ s with correctedQnVector := c1 }, c1, true)
      else
        some ({ s with
                correctedQnVector := c0
                qaNotValidatedBin := Option.map (fun c => c + 1) s.qaNotValidatedBin },
              c0, true)
  else
    some ({ s with correctedQnVector := { s.correctedQnVector with goodQuality := false } },
          { s.correctedQnVector with goodQuality := false }, true)

/-- ProcessCorrections of the recentering step
(QnCorrectionsQnVectorRecentering.cxx lines 162-214).  In the calibration
state nothing is done and the call reports not applied; the applyCollect
case falls through to the apply case (data collection happens in the
separate ProcessDataCollection entry point). -/
def ProcessCorrections (s : RecenteringState) (current : QnVector) (inp : RecenteringInputs) :
    Option (RecenteringState × QnVector × Bool) :=
  match s.state with
  | CorrectionStepState.calibration => some (s, current, false)
  | CorrectionStepState.applyCollect => processApply s current inp
  | CorrectionStepState.apply => processApply s current inp

end QnVectorRecentering

/-- Channelized data vector (QnCorrectionsDataVector.h in the unnamed
sources): channel id, azimuthal angle, raw weight and equalized weight. -/
structure DataVectorChannelized where
  id : Nat
  phi : ℚ
  weight : ℚ
  equalizedWeight : ℚ
deriving DecidableEq

/-- What the gain-equalization step reads from its attached input
histograms for the current event class and a channel id: the channel
average (GetBinContent), the channel width (GetBinError) and the
channel-group bin content (GetGrpBinContent). -/
structure GainEqInputs where
  channelAverage : Nat → ℚ
  channelWidth : Nat → ℚ
  groupBinContent : Nat → ℚ

/-- The equalization method selector of the gain-equalization step. -/
inductive EqualizationMethod where
  | noEqualization
  | averageEqualization
  | widthEqualization
deriving DecidableEq

/-- The configuration and state of the gain-equalization step relevant to
Process: the step state, the method, the shift and scale of the width
method, the group-weights switch and the optional hard-coded per-channel
weight table. -/
structure GainEqState where
  state : CorrectionStepState
  equalizationMethod : EqualizationMethod
  a : ℚ
  b : ℚ
  useChannelGroupsWeights : Bool
  hardCodedWeights : Option (Nat → ℚ)

namespace InputGainEqualization

/-- The group weight used for a channel
(QnCorrectionsInputGainEqualization.cxx lines 150-158 and 172-180): the
group bin content when group weights are in use, else the hard-coded
table entry when a table is present, else 1. -/
def groupWeight (s : GainEqState) (inp : GainEqInputs) (chId : Nat) : ℚ :=
  if s.useChannelGroupsWeights then inp.groupBinContent chId
  else
    match s.hardCodedWeights with
    | some w => w chId
    | none => 1

/-- The average-method update of one data vector
(QnCorrectionsInputGainEqualization.cxx lines 145-163). -/
def equalizeAverage (s : GainEqState) (inp : GainEqInputs)
    (d : DataVectorChannelized) : DataVectorChannelized :=
  if fMinimumSignificantValue < inp.channelAverage d.id then
    { d with equalizedWeight := d.weight / inp.channelAverage d.id * groupWeight s inp d.id }
  else
    { d with equalizedWeight := 0 }

/-- The width-method update of one data vector
(QnCorrectionsInputGainEqualization.cxx lines 166-185). -/
def equalizeWidth (s : GainEqState) (inp : GainEqInputs)
    (d : DataVectorChannelized) : DataVectorChannelized :=
  if fMinimumSignificantValue < inp.channelAverage d.id then
    { d with equalizedWeight :=
        (s.a + s.b * (d.weight - inp.channelAverage d.id) / inp.channelWidth d.id) *
          groupWeight s inp d.id }
  else
    { d with equalizedWeight := 0 }

/-- The equalized-weight pass over the whole data vector bank, dispatched
on the equalization method (QnCorrectionsInputGainEqualization.cxx lines
136-188). -/
def applyEqualization (s : GainEqState) (inp : GainEqInputs)
    (bank : List DataVectorChannelized) : List DataVectorChannelized :=
  match s.equalizationMethod with
  | EqualizationMethod.noEqualization =>
      bank.map (fun d => { d with equalizedWeight := d.weight })
  | EqualizationMethod.averageEqualization => bank.map (equalizeAverage s inp)
  | EqualizationMethod.widthEqualization => bank.map (equalizeWidth s inp)

/-- Process of the gain-equalization step
(QnCorrectionsInputGainEqualization.cxx lines 115-191).  The returned
triple is the data vector bank after the call, the list of raw-weight
fills sent to the calibration histograms (channel id and raw weight, in
bank order), and the Bool the function returns.  In the calibration state
only collection happens and the call reports not applied; the
applyCollect case collects and falls through to the equalization; the
apply case only equalizes. -/
def Process (s : GainEqState) (inp : GainEqInputs) (bank : List DataVectorChannelized) :
    List DataVectorChannelized × List (Nat × ℚ) × Bool :=
  match s.state with
  | CorrectionStepState.calibration => (bank, bank.map (fun d => (d.id, d.weight)), false)
  | CorrectionStepState.applyCollect =>
      (applyEqualization s inp bank, bank.map (fun d => (d.id, d.weight)), true)
  | CorrectionStepState.apply => (applyEqualization s inp bank, [], true)

end InputGainEqualization

/-!
Concrete inputs used by the claim theorems and witnesses below.
-/

/-- Build Qn vector with harmonic 1 active, components (4, 6), sum of
weights 2, for the older implementation. -/
def cb1legacy : Legacy.QnVectorBuild :=
  { highestHarmonic := 1, harmonicMask := 2
    qx := fun h => if h = 1 then 4 else 0
    qy := fun h => if h = 1 then 6 else 0
    sumW := 2, n := 1 }

/-- Build Qn vector with harmonic 1 active, components (4, 6), sum of
weights 2, for the current implementation. -/
def cb1 : QnVectorBuild :=
  { highestHarmonic := 1, harmonicMask := 2
    qx := fun h => if h = 1 then 4 else 0
    qy := fun h => if h = 1 then 6 else 0
    goodQuality := true, sumW := 2, n := 1 }

/-- The same build Qn vector with a sum of weights below the significance
threshold. -/
def cb1small : QnVectorBuild :=
  { cb1 with sumW := 1 / 10000000 }

/-- Qn vector with harmonic 1 active and components (3, 4), older
implementation. -/
def v6legacy : Legacy.QnVector :=
  { highestHarmonic := 1, harmonicMask := 2
    qx := fun h => if h = 1 then 3 else 0
    qy := fun h => if h = 1 then 4 else 0 }

/-- Qn vector with harmonic 1 active and components (3, 4), current
implementation. -/
def v6 : QnVector :=
  { highestHarmonic := 1, harmonicMask := 2
    qx := fun h => if h = 1 then 3 else 0
    qy := fun h => if h = 1 then 4 else 0
    goodQuality := true }

/-- A square-root table standing for the external math library at the
only point the normalization of the vector (3, 4) needs. -/
def sqrtTable25 : ℚ → ℚ := fun x => if x = 25 then 5 else 0

/-- A square-root table standing for the external math library at the
only point the width-preserving normalization with sum of weights 4
needs. -/
def sqrtTable4 : ℚ → ℚ := fun x => if x = 4 then 2 else 0

/-- Build Qn vector with harmonic 1 active, components (2, 0), sum of
weights 4, current implementation. -/
def b9 : QnVectorBuild :=
  { highestHarmonic := 1, harmonicMask := 2
    qx := fun h => if h = 1 then 2 else 0
    qy := fun _ => 0
    goodQuality := true, sumW := 4, n := 1 }

/-- Build Qn vector with harmonic 1 active, components (2, 0), sum of
weights 4, older implementation. -/
def b9legacy : Legacy.QnVectorBuild :=
  { highestHarmonic := 1, harmonicMask := 2
    qx := fun h => if h = 1 then 2 else 0
    qy := fun _ => 0
    sumW := 4, n := 1 }

/-- Gain-equalization step in the apply state with the average method, no
group weights and no hard-coded table. -/
def s5 : GainEqState :=
  { state := CorrectionStepState.apply
    equalizationMethod := EqualizationMethod.averageEqualization
    a := 0, b := 1, useChannelGroupsWeights := false, hardCodedWeights := none }

/-- Calibration store content for the gain-equalization witness: channel 3
has average 4, every other channel has an average below the significance
threshold. -/
def inp5 : GainEqInputs :=
  { channelAverage := fun ch => if ch = 3 then 4 else 1 / 10000000
    channelWidth := fun _ => 1
    groupBinContent := fun _ => 7 }

/-- Data vector bank for the gain-equalization witness: channel 3 with raw
weight 2 and channel 5 with raw weight 9. -/
def bank5 : List DataVectorChannelized :=
  [{ id := 3, phi := 0, weight := 2, equalizedWeight := 2 },
   { id := 5, phi := 0, weight := 9, equalizedWeight := 9 }]

/-- A reset corrected Qn vector owned by the recentering step, harmonic 1
active. -/
def recCorrected0 : QnVector :=
  { highestHarmonic := 1, harmonicMask := 2
    qx := fun _ => 0, qy := fun _ => 0, goodQuality := false }

/-- Recentering step in the apply state, width equalization disabled, QA
histogram present with bin content 0. -/
def rs2 : RecenteringState :=
  { state := CorrectionStepState.apply, applyWidthEqualization := false
    correctedQnVector := recCorrected0, qaNotValidatedBin := some 0 }

/-- Current Qn vector (5, 5) at harmonic 1, good quality. -/
def cur2 : QnVector :=
  { highestHarmonic := 1, harmonicMask := 2
    qx := fun _ => 5, qy := fun _ => 5, goodQuality := true }

/-- Calibration store content for the recentering witness: validated bin
with mean (2, 2) and unit widths. -/
def rinp2 : RecenteringInputs :=
  { binValidated := true
    xBinContent := fun _ => 2, yBinContent := fun _ => 2
    xBinError := fun _ => 1, yBinError := fun _ => 1 }

/-- The same calibration store content with the bin not validated. -/
def rinp3 : RecenteringInputs := { rinp2 with binValidated := false }

/-- The current Qn vector (5, 5) with bad quality. -/
def cur4 : QnVector := { cur2 with goodQuality := false }

/-- Recentering step whose owned corrected vector still holds component 9
from earlier processing. -/
def rs4 : RecenteringState :=
  { rs2 with correctedQnVector := { recCorrected0 with qx := fun _ => 9 } }

/-- Recentering step in the calibration state. -/
def rs10 : RecenteringState := { rs2 with state := CorrectionStepState.calibration }

/-- Receiver and argument with mismatched harmonic structures for the Set
witness. -/
def c8va : QnVector :=
  { highestHarmonic := 1, harmonicMask := 2
    qx := fun _ => 0, qy := fun _ => 0, goodQuality := false }

/-- Argument with a different highest harmonic and mask than c8va. -/
def c8oa : QnVector :=
  { highestHarmonic := 2, harmonicMask := 6
    qx := fun _ => 1, qy := fun _ => 1, goodQuality := true }

/-- Receiver with the same harmonic structure as c8ob. -/
def c8vb : QnVector :=
  { highestHarmonic := 2, harmonicMask := 6
    qx := fun _ => 0, qy := fun _ => 0, goodQuality := false }

/-- Argument with the same harmonic structure as c8vb and components to be
copied. -/
def c8ob : QnVector :=
  { highestHarmonic := 2, harmonicMask := 6
    qx := fun h => if h = 1 then 7 else 8, qy := fun _ => 9, goodQuality := true }

/-!
Helper lemmas shared by the claim theorems.
-/

/-- In one of the two applying states, ProcessCorrections of the
recentering step is the shared fallthrough body. -/
lemma ProcessCorrections_applying (s : RecenteringState) (current : QnVector)
    (inp : RecenteringInputs)
    (h : s.state = CorrectionStepState.applyCollect ∨ s.state = CorrectionStepState.apply) :
    QnVectorRecentering.ProcessCorrections s current inp =
      QnVectorRecentering.processApply s current inp := by
  rcases h with h | h <;> simp [QnVectorRecentering.ProcessCorrections, h]

/-- Set succeeds and copies everything when the harmonic structures
match. -/
lemma Set_eq_some_of_match (v Qn : QnVector)
    (hh : v.highestHarmonic = Qn.highestHarmonic) (hm : v.harmonicMask = Qn.harmonicMask) :
    QnVector.Set v Qn =
      some { v with qx := Qn.qx, qy := Qn.qy, goodQuality := Qn.goodQuality } := by
  rw [QnVector.Set, if_neg]
  simp [hh, hm]

/-!
Claim theorems.
-/

/-- Claim C2: for every event in which the recentering step is in an
applying state, the current Qn vector is good quality, and the
calibration bin for the current event class is validated, the corrected
output satisfies, for every active harmonic, corrected x equals current x
minus the bin x content divided by the x width, and likewise for y, where
both widths are 1 unless width equalization is enabled, in which case
they are the per-component bin errors.  The harmonic-structure
hypotheses reflect that the step allocates its corrected vector with the
harmonic map of its detector configuration. -/
theorem claim_C2_recentering_formula
    (s : RecenteringState) (current : QnVector) (inp : RecenteringInputs)
    (hstate : s.state = CorrectionStepState.applyCollect ∨ s.state = CorrectionStepState.apply)
    (hq : current.goodQuality = true)
    (hval : inp.binValidated = true)
    (hh : s.correctedQnVector.highestHarmonic = current.highestHarmonic)
    (hm : s.correctedQnVector.harmonicMask = current.harmonicMask) :
    ∃ s2, QnVectorRecentering.ProcessCorrections s current inp
        = some (s2, s2.correctedQnVector, true) ∧
      ∀ h ∈ activeHarmonics current,
        s2.correctedQnVector.qx h =
            (current.qx h - inp.xBinContent h) /
              (if s.applyWidthEqualization then inp.xBinError h else 1) ∧
        s2.correctedQnVector.qy h =
            (current.qy h - inp.yBinContent h) /
              (if s.applyWidthEqualization then inp.yBinError h else 1) := by
  rw [ProcessCorrections_applying s current inp hstate]
  rw [QnVectorRecentering.processApply, if_pos hq, Set_eq_some_of_match _ _ hh hm]
  dsimp only
  rw [if_pos hval]
  refine ⟨_, rfl, ?_⟩
  intro h hmem
  constructor <;> simp only [if_pos hmem]

/-- Witness for claim C2, realizing the example of the spec: current Qn
vector (5, 5), calibration mean (2, 2), width equalization disabled, so
the corrected Qn vector is (3, 3). -/
theorem claim_C2_recentering_formula_witness :
    (∃ s2, QnVectorRecentering.ProcessCorrections rs2 cur2 rinp2
        = some (s2, s2.correctedQnVector, true) ∧
      ∀ h ∈ activeHarmonics cur2,
        s2.correctedQnVector.qx h =
            (cur2.qx h - rinp2.xBinContent h) /
              (if rs2.applyWidthEqualization then rinp2.xBinError h else 1) ∧
        s2.correctedQnVector.qy h =
            (cur2.qy h - rinp2.yBinContent h) /
              (if rs2.applyWidthEqualization then rinp2.yBinError h else 1)) ∧
    ((QnVectorRecentering.ProcessCorrections rs2 cur2 rinp2).map
        fun r => (r.1.correctedQnVector.qx 1, r.1.correctedQnVector.qy 1, r.2.2))
      = some (3, 3, true) :=
  ⟨claim_C2_recentering_formula rs2 cur2 rinp2 (Or.inr rfl) rfl rfl rfl rfl, by
    norm_num [QnVectorRecentering.ProcessCorrections, QnVectorRecentering.processApply,
      rs2, cur2, rinp2, recCorrected0, QnVector.Set, activeHarmonics, harmonicRange,
      harmonicActive, harmonicNumberMask]⟩

/-- Claim C3: for every event in which the recentering step is applying,
the current Qn vector is good quality, the calibration bin is not
validated and the QA histogram was created, the corrected output keeps
the current component values unchanged and the not-validated diagnostic
bin for the event class grows by 1. -/
theorem claim_C3_recentering_not_validated
    (s : RecenteringState) (current : QnVector) (inp : RecenteringInputs) (c : ℚ)
    (hstate : s.state = CorrectionStepState.applyCollect ∨ s.state = CorrectionStepState.apply)
    (hq : current.goodQuality = true)
    (hval : inp.binValidated = false)
    (hh : s.correctedQnVector.highestHarmonic = current.highestHarmonic)
    (hm : s.correctedQnVector.harmonicMask = current.harmonicMask)
    (hqa : s.qaNotValidatedBin = some c) :
    ∃ s2, QnVectorRecentering.ProcessCorrections s current inp
        = some (s2, s2.correctedQnVector, true) ∧
      s2.correctedQnVector.qx = current.qx ∧
      s2.correctedQnVector.qy = current.qy ∧
      s2.correctedQnVector.goodQuality = current.goodQuality ∧
      s2.qaNotValidatedBin = some (c + 1) := by
  rw [ProcessCorrections_applying s current inp hstate]
  rw [QnVectorRecentering.processApply, if_pos hq, Set_eq_some_of_match _ _ hh hm]
  dsimp only
  rw [if_neg (by simp [hval])]
  refine ⟨_, rfl, rfl, rfl, rfl, ?_⟩
  simp [hqa]

/-- Witness for claim C3, realizing the example of the spec: current Qn
vector (5, 5) with an unvalidated calibration bin stays (5, 5) and the
not-validated counter goes from 0 to 1. -/
theorem claim_C3_recentering_not_validated_witness :
    (∃ s2, QnVectorRecentering.ProcessCorrections rs2 cur2 rinp3
        = some (s2, s2.correctedQnVector, true) ∧
      s2.correctedQnVector.qx = cur2.qx ∧
      s2.correctedQnVector.qy = cur2.qy ∧
      s2.correctedQnVector.goodQuality = cur2.goodQuality ∧
      s2.qaNotValidatedBin = some (0 + 1)) ∧
    ((QnVectorRecentering.ProcessCorrections rs2 cur2 rinp3).map
        fun r => (r.1.correctedQnVector.qx 1, r.1.qaNotValidatedBin, r.2.2))
      = some (5, some 1, true) :=
  ⟨claim_C3_recentering_not_validated rs2 cur2 rinp3 0 (Or.inr rfl) rfl rfl rfl rfl rfl, by
    norm_num [QnVectorRecentering.ProcessCorrections, QnVectorRecentering.processApply,
      rs2, cur2, rinp3, rinp2, recCorrected0, QnVector.Set]⟩

/-- Claim C4: for every event in which the input of the recentering step
(the current Qn vector of the detector configuration) has bad quality,
ProcessCorrections performs no correction arithmetic: it marks the
corrected-output vector of the step bad quality and leaves the components
of that output unmodified, propagating the bad quality downstream. -/
theorem claim_C4_bad_quality_propagation
    (s : RecenteringState) (current : QnVector) (inp : RecenteringInputs)
    (hstate : s.state = CorrectionStepState.applyCollect ∨ s.state = CorrectionStepState.apply)
    (hq : current.goodQuality = false) :
    ∃ s2, QnVectorRecentering.ProcessCorrections s current inp
        = some (s2, s2.correctedQnVector, true) ∧
      s2.correctedQnVector.goodQuality = false ∧
      s2.correctedQnVector.qx = s.correctedQnVector.qx ∧
      s2.correctedQnVector.qy = s.correctedQnVector.qy := by
  rw [ProcessCorrections_applying s current inp hstate]
  rw [QnVectorRecentering.processApply, hq]
  exact ⟨_, rfl, rfl, rfl, rfl⟩

/-- Witness for claim C4: a bad-quality current Qn vector leaves the
component 9 held by the corrected vector of the step untouched and marks
it bad. -/
theorem claim_C4_bad_quality_propagation_witness :
    (∃ s2, QnVectorRecentering.ProcessCorrections rs4 cur4 rinp2
        = some (s2, s2.correctedQnVector, true) ∧
      s2.correctedQnVector.goodQuality = false ∧
      s2.correctedQnVector.qx = rs4.correctedQnVector.qx ∧
      s2.correctedQnVector.qy = rs4.correctedQnVector.qy) ∧
    ((QnVectorRecentering.ProcessCorrections rs4 cur4 rinp2).map
        fun r => (r.1.correctedQnVector.qx 1, r.1.correctedQnVector.goodQuality, r.2.2))
      = some (9, false, true) :=
  ⟨claim_C4_bad_quality_propagation rs4 cur4 rinp2 (Or.inr rfl) rfl, by
    norm_num [QnVectorRecentering.ProcessCorrections, QnVectorRecentering.processApply,
      rs4, rs2, cur4, cur2, recCorrected0]⟩

/-- Claim C10: in the applyCollect or apply state, ProcessCorrections of
the recentering step always ends by replacing the current Qn vector of
the detector configuration with the corrected-output vector owned by the
step and returns true, whatever the input quality or bin validation; in
the calibration state it returns false and leaves the current Qn vector
unchanged. -/
theorem claim_C10_processCorrections_always_applies
    (s : RecenteringState) (current : QnVector) (inp : RecenteringInputs)
    (hh : s.correctedQnVector.highestHarmonic = current.highestHarmonic)
    (hm : s.correctedQnVector.harmonicMask = current.harmonicMask) :
    (s.state = CorrectionStepState.applyCollect ∨ s.state = CorrectionStepState.apply →
      ∃ s2, QnVectorRecentering.ProcessCorrections s current inp
          = some (s2, s2.correctedQnVector, true)) ∧
    (s.state = CorrectionStepState.calibration →
      QnVectorRecentering.ProcessCorrections s current inp = some (s, current, false)) := by
  constructor
  · intro hstate
    rw [ProcessCorrections_applying s current inp hstate]
    rw [QnVectorRecentering.processApply]
    cases hgq : current.goodQuality
    · exact ⟨_, rfl⟩
    · rw [if_pos rfl, Set_eq_some_of_match _ _ hh hm]
      cases hv : inp.binValidated
      · exact ⟨_, rfl⟩
      · exact ⟨_, rfl⟩
  · intro hcal
    simp [QnVectorRecentering.ProcessCorrections, hcal]

/-- Witness for claim C10, at a bad-quality input in the apply state and
at the calibration state. -/
theorem claim_C10_processCorrections_always_applies_witness :
    ((rs4.state = CorrectionStepState.applyCollect ∨ rs4.state = CorrectionStepState.apply →
      ∃ s2, QnVectorRecentering.ProcessCorrections rs4 cur4 rinp2
          = some (s2, s2.correctedQnVector, true)) ∧
    (rs4.state = CorrectionStepState.calibration →
      QnVectorRecentering.ProcessCorrections rs4 cur4 rinp2 = some (rs4, cur4, false))) ∧
    ((rs10.state = CorrectionStepState.applyCollect ∨ rs10.state = CorrectionStepState.apply →
      ∃ s2, QnVectorRecentering.ProcessCorrections rs10 cur2 rinp2
          = some (s2, s2.correctedQnVector, true)) ∧
    (rs10.state = CorrectionStepState.calibration →
      QnVectorRecentering.ProcessCorrections rs10 cur2 rinp2 = some (rs10, cur2, false))) :=
  ⟨claim_C10_processCorrections_always_applies rs4 cur4 rinp2 rfl rfl,
   claim_C10_processCorrections_always_applies rs10 cur2 rinp2 rfl rfl⟩

/-- Claim C5: for every data vector processed by the gain-equalization
step in average mode while the step is applying, the equalized weight is
the raw weight divided by the channel average and multiplied by the group
weight when the channel average exceeds the significance threshold, and 0
otherwise, whatever the raw weight. -/
theorem claim_C5_gain_equalization_average
    (s : GainEqState) (inp : GainEqInputs) (bank : List DataVectorChannelized)
    (hstate : s.state = CorrectionStepState.applyCollect ∨ s.state = CorrectionStepState.apply)
    (hmeth : s.equalizationMethod = EqualizationMethod.averageEqualization) :
    (InputGainEqualization.Process s inp bank).2.2 = true ∧
    (InputGainEqualization.Process s inp bank).1 = bank.map (fun d =>
      { d with equalizedWeight :=
          if fMinimumSignificantValue < inp.channelAverage d.id then
            d.weight / inp.channelAverage d.id * InputGainEqualization.groupWeight s inp d.id
          else 0 }) := by
  have hfun : InputGainEqualization.equalizeAverage s inp = fun d =>
      { d with equalizedWeight :=
          if fMinimumSignificantValue < inp.channelAverage d.id then
            d.weight / inp.channelAverage d.id * InputGainEqualization.groupWeight s inp d.id
          else 0 } := by
    funext d
    rw [InputGainEqualization.equalizeAverage]
    by_cases hc : fMinimumSignificantValue < inp.channelAverage d.id
    · rw [if_pos hc, if_pos hc]
    · rw [if_neg hc, if_neg hc]
  have happ : InputGainEqualization.applyEqualization s inp bank =
      bank.map (InputGainEqualization.equalizeAverage s inp) := by
    simp [InputGainEqualization.applyEqualization, hmeth]
  rcases hstate with h | h <;>
    simp [InputGainEqualization.Process, h, happ, hfun]

/-- Witness for claim C5, realizing the examples of the spec: raw weight
2 with channel average 4 and group weight 1 gives equalized weight one
half, and a channel average below the significance threshold gives
equalized weight 0 whatever the raw weight. -/
theorem claim_C5_gain_equalization_average_witness :
    ((InputGainEqualization.Process s5 inp5 bank5).2.2 = true ∧
    (InputGainEqualization.Process s5 inp5 bank5).1 = bank5.map (fun d =>
      { d with equalizedWeight :=
          if fMinimumSignificantValue < inp5.channelAverage d.id then
            d.weight / inp5.channelAverage d.id *
              InputGainEqualization.groupWeight s5 inp5 d.id
          else 0 })) ∧
    (InputGainEqualization.Process s5 inp5 bank5).1 =
      [{ id := 3, phi := 0, weight := 2, equalizedWeight := 1 / 2 },
       { id := 5, phi := 0, weight := 9, equalizedWeight := 0 }] :=
  ⟨claim_C5_gain_equalization_average s5 inp5 bank5 (Or.inr rfl) rfl, by
    norm_num [InputGainEqualization.Process, s5, inp5, bank5,
      InputGainEqualization.applyEqualization, InputGainEqualization.equalizeAverage,
      InputGainEqualization.groupWeight, fMinimumSignificantValue]⟩

/-- Claim C8: for every pair of Qn vectors, Set fails fatally when the
harmonic structures differ in the highest harmonic or the harmonic mask,
and when they match it bulk-copies the components and the quality flag of
the argument into the receiver. -/
theorem claim_C8_set_harmonic_structures (v Qn : QnVector) :
    ((v.highestHarmonic ≠ Qn.highestHarmonic ∨ v.harmonicMask ≠ Qn.harmonicMask) →
      QnVector.Set v Qn = none) ∧
    (v.highestHarmonic = Qn.highestHarmonic → v.harmonicMask = Qn.harmonicMask →
      ∃ w, QnVector.Set v Qn = some w ∧ w.qx = Qn.qx ∧ w.qy = Qn.qy ∧
        w.goodQuality = Qn.goodQuality ∧ w.highestHarmonic = v.highestHarmonic ∧
        w.harmonicMask = v.harmonicMask) := by
  constructor
  · intro hne
    rw [QnVector.Set, if_pos hne]
  · intro hh hm
    rw [Set_eq_some_of_match v Qn hh hm]
    exact ⟨_, rfl, rfl, rfl, rfl, rfl, rfl⟩

/-- Witness for claim C8: Set of a receiver with harmonic structure (1,
mask 2) from an argument with structure (2, mask 6) is the fatal error,
and Set between matching structures copies components and quality. -/
theorem claim_C8_set_harmonic_structures_witness :
    QnVector.Set c8va c8oa = none ∧
    (∃ w, QnVector.Set c8vb c8ob = some w ∧ w.qx = c8ob.qx ∧ w.qy = c8ob.qy ∧
      w.goodQuality = c8ob.goodQuality ∧ w.highestHarmonic = c8vb.highestHarmonic ∧
      w.harmonicMask = c8vb.harmonicMask) :=
  ⟨(claim_C8_set_harmonic_structures c8va c8oa).1 (Or.inl (by decide)),
   (claim_C8_set_harmonic_structures c8vb c8ob).2 rfl rfl⟩

/-- Claim C1 (settled as a bug of the older implementation): the claim
states that NormalizeQoverM leaves every component unchanged below the
significance threshold and otherwise divides each active harmonic
component once by the sum of weights.  The current implementation does
exactly that, as evaluated here on the build vector (4, 6) with sum of
weights 2: the result is (2, 3), dividing twice gives 1, and a sum of
weights below the threshold leaves 4 unchanged.  The older
implementation (QnCorrectionsQnVectors.cxx lines 282-291) instead leaves
(4, 6) unchanged above the threshold, against its own doc comment. -/
theorem claim_C1_normalizeQoverM_code_bug :
    (Legacy.NormalizeQoverM cb1legacy).qx 1 = 4 ∧
    (Legacy.NormalizeQoverM cb1legacy).qy 1 = 6 ∧
    cb1legacy.sumW = 2 ∧ ¬(cb1legacy.sumW < fMinimumSignificantValue) ∧
    (QnVectorBuild.NormalizeQoverM cb1).qx 1 = 2 ∧
    (QnVectorBuild.NormalizeQoverM cb1).qy 1 = 3 ∧
    (QnVectorBuild.NormalizeQoverM (QnVectorBuild.NormalizeQoverM cb1)).qx 1 = 1 ∧
    (QnVectorBuild.NormalizeQoverM cb1small).qx 1 = 4 := by
  refine ⟨?_, ?_, ?_, ?_, ?_, ?_, ?_, ?_⟩ <;>
    norm_num [Legacy.NormalizeQoverM, QnVectorBuild.NormalizeQoverM, cb1legacy, cb1,
      cb1small, fMinimumSignificantValue, activeHarmonics, Legacy.visitedHarmonics,
      harmonicRange, harmonicActive, Legacy.harmonicActiveAsWritten, harmonicNumberMask]

/-- Claim C6 (settled as a bug of the older implementation): the claim
states that ActivateHarmonic fails fatally above harmonic 15, is a no-op
on an already active harmonic, and otherwise sets the mask bit and zeroes
the components of the harmonic.  The current implementation does exactly
that, as evaluated here.  The older implementation
(QnCorrectionsQnVectors.cxx lines 127-152) zeroes the components of the
already active harmonic 1, because its activity test parses as bit 0 of
the mask, so its already-active branch is unreachable. -/
theorem claim_C6_activateHarmonic_code_bug :
    ((Legacy.ActivateHarmonic 1 v6legacy).map fun w => w.qx 1) = some 0 ∧
    v6legacy.qx 1 = 3 ∧
    ((QnVector.ActivateHarmonic 1 v6).map
        fun w => (w.qx 1, w.qy 1, w.harmonicMask, w.highestHarmonic)) = some (3, 4, 2, 1) ∧
    (QnVector.ActivateHarmonic 16 v6).isNone = true ∧
    (Legacy.ActivateHarmonic 16 v6legacy).isNone = true ∧
    ((QnVector.ActivateHarmonic 3 v6).map
        fun w => (w.qx 3, w.qy 3, w.harmonicMask, w.highestHarmonic)) = some (0, 0, 10, 3) := by
  refine ⟨?_, ?_, ?_, ?_, ?_, ?_⟩ <;>
    norm_num [Legacy.ActivateHarmonic, QnVector.ActivateHarmonic, v6legacy, v6,
      MAXHARMONICNUMBERSUPPORTED, Legacy.harmonicActiveAsWritten, harmonicActive,
      harmonicNumberMask]
  decide

/-- Claim C7 (settled as a bug of the older implementation): the claim
states that normalize replaces every active harmonic component pair with
the pair divided by the harmonic vector length, sending (3, 4) to (3/5,
4/5).  The current implementation does exactly that, as evaluated here
with a square-root table sending 25 to 5.  The older implementation
(QnCorrectionsQnVectors.cxx lines 167-174) leaves (3, 4) unchanged,
because its activity test parses as bit 0 of the mask and its loop body
never runs. -/
theorem claim_C7_normalize_code_bug :
    sqrtTable25 (3 * 3 + 4 * 4) = 5 ∧
    (Legacy.Normalize sqrtTable25 v6legacy).qx 1 = 3 ∧
    (Legacy.Normalize sqrtTable25 v6legacy).qy 1 = 4 ∧
    (QnVector.Normalize sqrtTable25 v6).qx 1 = 3 / 5 ∧
    (QnVector.Normalize sqrtTable25 v6).qy 1 = 4 / 5 := by
  refine ⟨?_, ?_, ?_, ?_, ?_⟩ <;>
    norm_num [Legacy.Normalize, QnVector.Normalize, v6legacy, v6, sqrtTable25,
      QnVector.QxNorm, QnVector.QyNorm, QnVector.lengthOfHarmonic, activeHarmonics,
      Legacy.visitedHarmonics, harmonicRange, harmonicActive,
      Legacy.harmonicActiveAsWritten, harmonicNumberMask]

/-- Claim C9 (settled as a bug of both implementations): the claim states
that NormalizeQoverSquareRootOfM replaces each active harmonic component
with its value divided by the square root of the sum of weights when the
latter is significant.  On the build vector with component 2 at harmonic
1 and sum of weights 4 (square root 2) the claimed result is 1; the
current implementation produces 3 because it adds the quotient to the
component instead of assigning it, and the older implementation produces
2 (unchanged) because its normalization only runs below the threshold and
its activity test parses as bit 0 of the mask. -/
theorem claim_C9_normalizeQoverSquareRootOfM_code_bug :
    sqrtTable4 b9.sumW = 2 ∧ b9.qx 1 = 2 ∧
    b9.qx 1 / sqrtTable4 b9.sumW = 1 ∧
    (QnVectorBuild.NormalizeQoverSquareRootOfM sqrtTable4 b9).qx 1 = 3 ∧
    (Legacy.NormalizeQoverSquareRootOfM sqrtTable4 b9legacy).qx 1 = 2 := by
  refine ⟨?_, ?_, ?_, ?_, ?_⟩ <;>
    norm_num [QnVectorBuild.NormalizeQoverSquareRootOfM, Legacy.NormalizeQoverSquareRootOfM,
      b9, b9legacy, sqrtTable4, fMinimumSignificantValue, activeHarmonics,
      Legacy.visitedHarmonics, harmonicRange, harmonicActive,
      Legacy.harmonicActiveAsWritten, harmonicNumberMask]

end QnCorrections
